import Mathlib

/-
Verification development for the 7days_pickup pipeline.

Shallow embedding of the core of the repository:
  app.py               : get_arxiv_dates (calendar window over weekdays)
  arxiv_daily_fetcher.py : fetch_arxiv_papers_by_date, save_to_csv, main
  summarize_by_zai.py  : get_summary_from_zai, process_file
  run_pipeline.py      : check_and_run_pipeline, main

Modelling conventions:
  - Calendar dates are integers (days since an epoch chosen so that day 0 is a
    Monday); `d % 7` is then exactly Python's `date.weekday()`
    (Monday = 0 .. Sunday = 6).
  - `now` is represented after conversion to the cutoff zone as a pair
    (local day, minutes past local midnight); the pytz conversion itself is an
    external collaborator.
  - Python's unbounded `while` loop in get_arxiv_dates is embedded with an
    explicit fuel of 3 * daysToShow; the adequacy of that fuel is proved
    (walkLoop_post), so the embedding computes the same date the loop does.
  - Publication timestamps compared via strftime('%Y%m%d') strings are
    fixed-width digit strings, whose lexicographic order coincides with the
    numeric order of the corresponding natural numbers; they are embedded as ℕ.
  - The file system is a list of (filename, rows) pairs; pandas CSV
    serialization is embedded at character level in the Csv section:
    QUOTE_MINIMAL quoting and '\n' line terminators on the write side, and
    on the read side tokenization followed by the default na_values
    conversion (empty fields and NA tokens load as NaN).  read_csv's last
    conversion, column-level dtype inference, turns a column's strings into
    numbers or booleans only when every non-NA entry of the column parses as
    such; it is not applied by the model, so the round-trip statement is
    scoped by an explicit keeps-text condition on every column
    (columnKeepsTextB, an over-approximation of what the parser may coerce).
  - The two subprocesses launched by run_pipeline.py are an abstract
    environment of two store transformers that may fail (non-zero exit code
    = Except.error), since check_and_run_pipeline only observes success or
    failure of each.
-/

/-! ## Calendar window (app.py: get_arxiv_dates) -/

/-- Python `d.weekday() < 5` for the integer-day model (day 0 = Monday). -/
def isWeekday (d : ℤ) : Bool :=
  decide (d % 7 < 5)

/-- The `while valid_days_counted < days_to_show` loop of get_arxiv_dates:
each step moves `start` back one day, counting the new day only when it is a
weekday.  `fuel` bounds the recursion; `walkLoop_post` proves 3 * target
steps always suffice, so the fuelled function equals Python's unbounded loop. -/
def walkLoop (target : ℕ) : ℕ → ℤ → ℕ → ℤ
  | 0, start, _ => start
  | fuel + 1, start, counted =>
    if counted < target then
      walkLoop target fuel (start - 1)
        (if isWeekday (start - 1) then counted + 1 else counted)
    else start

/-- End date selection of get_arxiv_dates: today when local time has reached
the cutoff (14:00 ET in the source), otherwise yesterday. -/
def arxivEndDate (etDay : ℤ) (etMinutes cutoffMinutes : ℕ) : ℤ :=
  if cutoffMinutes ≤ etMinutes then etDay else etDay - 1

/-- get_arxiv_dates from app.py: returns (start_date, end_date).  The counter
starts at 1 because the source counts the end date itself as the first day
(`valid_days_counted = 1`), whether or not it is a weekday. -/
def get_arxiv_dates (etDay : ℤ) (etMinutes cutoffMinutes daysToShow : ℕ) : ℤ × ℤ :=
  (walkLoop daysToShow (3 * daysToShow) (arxivEndDate etDay etMinutes cutoffMinutes) 1,
   arxivEndDate etDay etMinutes cutoffMinutes)

/-- Number of weekdays among the `n` days `b, b-1, ..., b-n+1`. -/
def countWeekdaysDown (b : ℤ) : ℕ → ℕ
  | 0 => 0
  | n + 1 => (if isWeekday b then 1 else 0) + countWeekdaysDown (b - 1) n

/-- Number of weekdays in the inclusive range [a, b]. -/
def numWeekdays (a b : ℤ) : ℕ :=
  countWeekdaysDown b (b + 1 - a).toNat

/-- Fuel credit of a day: number of loop steps saved relative to the
worst case (3 steps per counted weekday) when walking backwards from `d`.
Used only to prove the fuel bound of `walkLoop`. -/
def credit (d : ℤ) : ℕ :=
  if d % 7 < 5 then 0 else if d % 7 = 5 then 2 else 1

/-! ## Data rows (arxiv_daily_fetcher.py / summarize_by_zai.py) -/

/-- One record produced by the external catalog query (arxiv.Client results). -/
structure ArxivResult where
  title : String
  authors : List String
  published : ℕ
  summary : String
  entryId : String
  pdfUrl : String
  primaryCategory : String
deriving DecidableEq, Repr

/-- One row of a persisted artifact: the dict built in
fetch_arxiv_papers_by_date plus the optional `summarization` column added by
summarize_by_zai.py (`none` = column absent / NaN). -/
structure PaperRow where
  title : String
  authors : String
  publishedDate : ℕ
  summary : String
  arxivUrl : String
  pdfUrl : String
  primaryCategory : String
  summarization : Option String
deriving DecidableEq, Repr

/-- `result.summary.replace('\n', ' ')` from the fetcher. -/
def stripNewlines (s : String) : String :=
  String.mk (s.data.map (fun c => if c = '\n' then ' ' else c))

/-- The row dict appended in fetch_arxiv_papers_by_date. -/
def mkRow (r : ArxivResult) : PaperRow :=
  { title := r.title
    authors := String.intercalate (", ") r.authors
    publishedDate := r.published
    summary := stripNewlines r.summary
    arxivUrl := r.entryId
    pdfUrl := r.pdfUrl
    primaryCategory := r.primaryCategory
    summarization := none }

/-! ## Collection (arxiv_daily_fetcher.py) -/

/-- The result loop of fetch_arxiv_papers_by_date: collect rows published
exactly on `target`, stop as soon as a strictly older item appears, skip newer
items.  Returns the collected rows and the number of catalog items examined. -/
def fetchLoop (target : ℕ) : List ArxivResult → List PaperRow × ℕ
  | [] => ([], 0)
  | r :: rs =>
    if r.published = target then
      ((mkRow r) :: (fetchLoop target rs).1, (fetchLoop target rs).2 + 1)
    else if r.published < target then
      ([], 1)
    else
      ((fetchLoop target rs).1, (fetchLoop target rs).2 + 1)

/-- fetch_arxiv_papers_by_date: the arxiv.Search is issued with
`max_results`, so the catalog yields at most that many items. -/
def fetch_arxiv_papers_by_date (catalog : List ArxivResult) (maxResults target : ℕ) :
    List PaperRow × ℕ :=
  fetchLoop target (catalog.take maxResults)

/-- The per-category call in the fetcher's main: `max_results=500`. -/
def fetchForCategory (catalog : List ArxivResult) (target : ℕ) : List PaperRow × ℕ :=
  fetch_arxiv_papers_by_date catalog 500 target

/-- drop_duplicates(subset=['arxiv_url'], keep='first'). -/
def dedupAux (seen : List String) : List PaperRow → List PaperRow
  | [] => []
  | r :: rs =>
    if r.arxivUrl ∈ seen then dedupAux seen rs
    else r :: dedupAux (r.arxivUrl :: seen) rs

/-- De-duplication by arxiv_url, keeping first occurrences. -/
def dedupByUrl (rows : List PaperRow) : List PaperRow :=
  dedupAux [] rows

/-- The durable storage: filenames with their tabular content. -/
abbrev PaperStore := List (String × List PaperRow)

/-- save_to_csv: skips writing entirely when the table is empty. -/
def save_to_csv (store : PaperStore) (filename : String) (rows : List PaperRow) : PaperStore :=
  if rows.isEmpty then store else store ++ [(filename, rows)]

/-- Tail of the fetcher's main: keep the non-empty per-category results,
concatenate, de-duplicate by url and save; if every category contributed
nothing, write nothing. -/
def fetcher_main (store : PaperStore) (filename : String)
    (categoryResults : List (List PaperRow)) : PaperStore :=
  if (categoryResults.filter (fun df => !df.isEmpty)).isEmpty then store
  else save_to_csv store filename
    (dedupByUrl (categoryResults.filter (fun df => !df.isEmpty)).flatten)

/-! ## Artifact naming and discovery (run_pipeline.py / summarize_by_zai.py) -/

/-- `'-'.join(categories).replace('.', '')`. -/
def catsCode (cats : List String) : List Char :=
  (String.intercalate ("-") cats).toList.filter (fun c => c != '.')

/-- The filename pattern head `f"arxiv_{categories_str}"`. -/
def prefixPat (cats : List String) : List Char :=
  "arxiv_".toList ++ catsCode cats

/-- The filename pattern tail `f"_{date_str}.csv"`. -/
def suffixPat (dateStr : String) : List Char :=
  "_".toList ++ dateStr.toList ++ ".csv".toList

/-- `filename.startswith(pattern_prefix) and filename.endswith(pattern_suffix)`. -/
def filename_matches (f : String) (cats : List String) (dateStr : String) : Bool :=
  (prefixPat cats).isPrefixOf f.toList && (suffixPat dateStr).isSuffixOf f.toList

/-- The directory scan of check_and_run_pipeline (and find_csv_files):
some stored filename matches the prefix/suffix convention. -/
def existsArtifact (files : List String) (cats : List String) (dateStr : String) : Bool :=
  files.any (fun f => filename_matches f cats dateStr)

/-- The output filename built by the fetcher's main, with the optional
keyword qualifier string between the category code and the date. -/
def output_filename (cats : List String) (keywordsStr dateStr : String) : String :=
  String.mk (prefixPat cats) ++ keywordsStr ++ String.mk (suffixPat dateStr)

/-! ## Enrichment (summarize_by_zai.py) -/

/-- `df['summarization'].isnull() | (df['summarization'] == '')`. -/
def pendingB (r : PaperRow) : Bool :=
  match r.summarization with
  | none => true
  | some s => s == ""

/-- get_summary_from_zai: returns the annotator's text on success and the
sentinel string `f"调用API失败: {e}"` on any exception; it never raises. -/
def get_summary_from_zai (annotate : String → String → Except String String)
    (title abstract : String) : String :=
  match annotate title abstract with
  | Except.ok t => t
  | Except.error e => "调用API失败: " ++ e

/-- The per-row update `df.loc[index, 'summarization'] = one_sentence_summary`
applied only to rows of the pending subset. -/
def enrichRow (annotate : String → String → Except String String) (r : PaperRow) : PaperRow :=
  if pendingB r then
    { r with summarization := some (get_summary_from_zai annotate r.title r.summary) }
  else r

/-- The enrichment loop of process_file, instrumented with the list of
(title, abstract) pairs actually sent to the annotator, in order. -/
def processFileInstr (annotate : String → String → Except String String) :
    List PaperRow → List PaperRow × List (String × String)
  | [] => ([], [])
  | r :: rs =>
    if pendingB r then
      ((enrichRow annotate r) :: (processFileInstr annotate rs).1,
       (r.title, r.summary) :: (processFileInstr annotate rs).2)
    else
      (r :: (processFileInstr annotate rs).1, (processFileInstr annotate rs).2)

/-- Number of rows the pass will annotate (`len(to_process_df)`). -/
def pendingCount (rows : List PaperRow) : ℕ :=
  (rows.filter pendingB).length

/-- The artifact states persisted by one process_file call: nothing when there
was nothing to do (early return), otherwise a single save of the fully
enriched table after the loop (`df.to_csv` appears only after the loop). -/
def processFileSaves (annotate : String → String → Except String String)
    (rows : List PaperRow) : List (List PaperRow) :=
  if pendingCount rows = 0 then [] else [(processFileInstr annotate rows).1]

/-- The artifact states process_file has persisted by the time `k` annotator
calls have completed: none before the pass finishes, the single final save
once all pending rows are done. -/
def savesAfterCalls (annotate : String → String → Except String String)
    (rows : List PaperRow) (k : ℕ) : List (List PaperRow) :=
  if pendingCount rows ≤ k then processFileSaves annotate rows else []

/-- The in-memory table after the first `k` annotator calls of the pass
(an interruption point mid-loop). -/
def enrichFirstK (annotate : String → String → Except String String) :
    List PaperRow → ℕ → List PaperRow
  | [], _ => []
  | r :: rs, k =>
    if pendingB r then
      match k with
      | 0 => r :: rs
      | k' + 1 => (enrichRow annotate r) :: enrichFirstK annotate rs k'
    else r :: enrichFirstK annotate rs k

/-- The unit state `ENRICHED` of the spec: no row of the artifact is pending. -/
def artifactEnriched (rows : List PaperRow) : Bool :=
  rows.all (fun r => !(pendingB r))

/-! ## Orchestrator (run_pipeline.py) -/

/-- The two subprocesses, abstracted: each maps the store to a new store or
fails (non-zero exit code, surfaced as subprocess.CalledProcessError). -/
structure StageEnv where
  fetchStep : String → PaperStore → Except String PaperStore
  sumStep : String → PaperStore → Except String PaperStore

/-- What one check_and_run_pipeline call did for its unit. -/
structure PipelineOutcome where
  ranFetch : Bool
  ranSum : Bool
  failed : Bool
deriving DecidableEq, Repr

/-- check_and_run_pipeline: when a matching artifact filename exists the unit
is treated as fully done and neither stage runs; otherwise the fetcher runs,
and on its success the summarizer runs.  A failing stage is caught (the
function returns instead of raising). -/
def check_and_run_pipeline (env : StageEnv) (cats : List String) (dateStr : String)
    (store : PaperStore) : PaperStore × PipelineOutcome :=
  if existsArtifact (store.map Prod.fst) cats dateStr then
    (store, ⟨false, false, false⟩)
  else
    match env.fetchStep dateStr store with
    | Except.error _ => (store, ⟨true, false, true⟩)
    | Except.ok s1 =>
      match env.sumStep dateStr s1 with
      | Except.error _ => (s1, ⟨true, true, true⟩)
      | Except.ok s2 => (s2, ⟨true, true, false⟩)

/-- The date loop of run_pipeline.py's main: every date in the range is
handed to check_and_run_pipeline, whatever earlier outcomes were. -/
def pipelineLoop (env : StageEnv) (cats : List String) :
    List String → PaperStore → PaperStore × List PipelineOutcome
  | [], store => (store, [])
  | d :: ds, store =>
    ((pipelineLoop env cats ds (check_and_run_pipeline env cats d store).1).1,
     (check_and_run_pipeline env cats d store).2 ::
       (pipelineLoop env cats ds (check_and_run_pipeline env cats d store).1).2)

/-- main of run_pipeline.py: processes the whole range and falls off the end;
the interpreter therefore always exits with status 0 (the last component). -/
def run_pipeline_main (env : StageEnv) (cats : List String) (dates : List String)
    (store : PaperStore) : PaperStore × List PipelineOutcome × ℕ :=
  ((pipelineLoop env cats dates store).1, (pipelineLoop env cats dates store).2, 0)

/-! ## CSV serialization (pandas to_csv / read_csv as used by the repo)

`df.to_csv(..., index=False)` writes each cell with QUOTE_MINIMAL quoting
(quote when the text contains a separator, quote, or line break; double
embedded quotes) and terminates rows with '\n'; NaN cells become empty
fields.  `pd.read_csv` parses that format back, reading an empty field as
NaN.  Cells are `Option (List Char)`: `none` is NaN / absent. -/

/-- Push one character onto the cell currently being parsed. -/
def consCell (c : Char) : List (List (List Char)) → List (List (List Char))
  | (cell :: cells) :: rs => ((c :: cell) :: cells) :: rs
  | [] :: rs => [[c]] :: rs
  | [] => [[[c]]]

/-- Fold cell characters back onto a parser state. -/
def prependCells (cs : List Char) (rows : List (List (List Char))) :
    List (List (List Char)) :=
  cs.foldr consCell rows

/-- A row with only the fields relevant to enrichment populated. -/
def testRow (t : String) (ann : Option String) : PaperRow :=
  { title := t, authors := "", publishedDate := 0, summary := "",
    arxivUrl := t, pdfUrl := "", primaryCategory := "", summarization := ann }

/-- An annotator that always succeeds with "S". -/
def annOk : String → String → Except String String :=
  fun _ _ => Except.ok ("S")

/-- An annotator failing exactly on titles t4, t5, t6. -/
def ann10 : String → String → Except String String :=
  fun t _ =>
    if t == "t4" || t == "t5" || t == "t6" then Except.error ("rate limit")
    else Except.ok ("ok summary")

/-- Ten rows: the first three already annotated, seven pending. -/
def rows10 : List PaperRow :=
  [testRow ("t1") (some ("a1")), testRow ("t2") (some ("a2")), testRow ("t3") (some ("a3")),
   testRow ("t4") none, testRow ("t5") none, testRow ("t6") none, testRow ("t7") none,
   testRow ("t8") none, testRow ("t9") none, testRow ("t10") none]

/-- Two pending rows, for the interruption counterexample. -/
def rowsC2 : List PaperRow :=
  [testRow ("a") none, testRow ("b") none]

/-- A pending row sitting in an already-collected artifact. -/
def pRowC1 : PaperRow := testRow ("p1") none

/-- A store holding a collected artifact for 2024-03-04, category cs.AI,
with one pending row. -/
def store0C1 : PaperStore := [("arxiv_csAI_2024-03-04.csv", [pRowC1])]

/-- An environment whose summarize step would enrich every stored artifact. -/
def envEnrich : StageEnv :=
  { fetchStep := fun _ s => Except.ok s
    sumStep := fun _ s => Except.ok (s.map (fun p => (p.1, (processFileInstr annOk p.2).1))) }

/-- An environment whose fetch step always exits non-zero. -/
def envFail : StageEnv :=
  { fetchStep := fun _ _ => Except.error ("fetch failed")
    sumStep := fun _ s => Except.ok s }

/-- Catalog items for the early-termination scenario. -/
def resOnDateA : ArxivResult :=
  { title := "A", authors := ["x"], published := 20240304, summary := "sa",
    entryId := "urlA", pdfUrl := "pa", primaryCategory := "eess.AS" }

def resOnDateB : ArxivResult :=
  { title := "B", authors := ["y"], published := 20240304, summary := "sb",
    entryId := "urlB", pdfUrl := "pb", primaryCategory := "eess.AS" }

def resOlderC : ArxivResult :=
  { title := "C", authors := ["z"], published := 20240301, summary := "sc",
    entryId := "urlC", pdfUrl := "pc", primaryCategory := "eess.AS" }

def resNewerD : ArxivResult :=
  { title := "D", authors := ["w"], published := 20240305, summary := "sd",
    entryId := "urlD", pdfUrl := "pd", primaryCategory := "eess.AS" }

lemma credit_le_two (d : ℤ) : credit d ≤ 2 := by
  unfold credit
  split_ifs <;> omega

lemma walkLoop_done (target fuel counted : ℕ) (start : ℤ) (h : target ≤ counted) :
    walkLoop target fuel start counted = start := by
  cases fuel <;> simp [walkLoop, Nat.not_lt.mpr h]

lemma credit_step (s : ℤ) (hw : isWeekday (s - 1) = false) :
    credit s + 1 ≤ credit (s - 1) := by
  simp only [isWeekday, decide_eq_false_iff_not, not_lt] at hw
  unfold credit
  split_ifs <;> omega

lemma numWeekdays_top (a b : ℤ) (h : a ≤ b) :
    numWeekdays a b = (if isWeekday b then 1 else 0) + numWeekdays a (b - 1) := by
  unfold numWeekdays
  have h1 : (b + 1 - a).toNat = (b - 1 + 1 - a).toNat + 1 := by omega
  rw [h1]
  simp only [countWeekdaysDown]

lemma numWeekdays_self (a : ℤ) : numWeekdays a a = if isWeekday a then 1 else 0 := by
  unfold numWeekdays
  have h1 : (a + 1 - a).toNat = 1 := by omega
  rw [h1]
  simp [countWeekdaysDown]

lemma walkLoop_post : ∀ (fuel target counted : ℕ) (start : ℤ),
    counted < target → 3 * (target - counted) ≤ fuel + credit start →
    walkLoop target fuel start counted < start
    ∧ isWeekday (walkLoop target fuel start counted) = true
    ∧ numWeekdays (walkLoop target fuel start counted) (start - 1) = target - counted := by
  intro fuel
  induction fuel with
  | zero =>
    intro target counted start hlt hb
    exfalso
    have h2 := credit_le_two start
    omega
  | succ fuel ih =>
    intro target counted start hlt hb
    by_cases hw : isWeekday (start - 1)
    · have hstep : walkLoop target (fuel + 1) start counted
          = walkLoop target fuel (start - 1) (counted + 1) := by
        simp [walkLoop, hlt, hw]
      by_cases hdone : counted + 1 < target
      · have hb' : 3 * (target - (counted + 1)) ≤ fuel + credit (start - 1) := by
          have h2 := credit_le_two start
          omega
        obtain ⟨h1, h2, h3⟩ := ih target (counted + 1) (start - 1) hdone hb'
        rw [hstep]
        refine ⟨by omega, h2, ?_⟩
        rw [numWeekdays_top _ (start - 1) (le_of_lt h1), hw, h3]
        simp
        omega
      · have hdone' : counted + 1 = target := by omega
        rw [hstep, walkLoop_done target fuel (counted + 1) (start - 1) (by omega)]
        refine ⟨by omega, hw, ?_⟩
        rw [numWeekdays_self, hw]
        simp
        omega
    · have hw' : isWeekday (start - 1) = false := by
        simpa using hw
      have hstep : walkLoop target (fuel + 1) start counted
          = walkLoop target fuel (start - 1) counted := by
        simp [walkLoop, hlt, hw']
      have hb' : 3 * (target - counted) ≤ fuel + credit (start - 1) := by
        have h2 := credit_step start hw'
        omega
      obtain ⟨h1, h2, h3⟩ := ih target counted (start - 1) hlt hb'
      rw [hstep]
      refine ⟨by omega, h2, ?_⟩
      rw [numWeekdays_top _ (start - 1) (le_of_lt h1), hw']
      simpa using h3

/-- Claim C3 (amended): for every local instant and cutoff and every
requiredUnits ≥ 1, get_arxiv_dates returns firstUnit ≤ lastUnit, and the
number of weekdays in [firstUnit, lastUnit] is requiredUnits when lastUnit
is a weekday, and requiredUnits - 1 when lastUnit falls on a weekend
(the loop counts the end date as the first unit even on a weekend). -/
theorem compute_window_weekday_count (etDay : ℤ) (etMin cutoff n : ℕ) (hn : 1 ≤ n) :
    (get_arxiv_dates etDay etMin cutoff n).1 ≤ (get_arxiv_dates etDay etMin cutoff n).2
    ∧ numWeekdays (get_arxiv_dates etDay etMin cutoff n).1 (get_arxiv_dates etDay etMin cutoff n).2
      = n - (if isWeekday (get_arxiv_dates etDay etMin cutoff n).2 then 0 else 1) := by
  unfold get_arxiv_dates
  generalize arxivEndDate etDay etMin cutoff = e
  simp only
  by_cases h1 : 1 < n
  · obtain ⟨hlt, hwk, hcount⟩ := walkLoop_post (3 * n) n 1 e h1 (by
      have h2 := credit_le_two e
      omega)
    refine ⟨le_of_lt hlt, ?_⟩
    rw [numWeekdays_top _ e (le_of_lt hlt), hcount]
    rcases Bool.eq_false_or_eq_true (isWeekday e) with hw | hw
    · simp [hw]
      omega
    · simp [hw]
  · have hn1 : n = 1 := by omega
    subst hn1
    rw [walkLoop_done 1 (3 * 1) 1 e (le_refl 1)]
    refine ⟨le_refl e, ?_⟩
    rw [numWeekdays_self]
    by_cases hw : isWeekday e <;> simp [hw]

/-- Witness for C3: the weekend-skip scenario of the spec — lastUnit a Monday
(day 14), requiredUnits 7. -/
theorem compute_window_weekday_count_witness :
    1 ≤ 7
    ∧ ((get_arxiv_dates 14 900 840 7).1 ≤ (get_arxiv_dates 14 900 840 7).2
      ∧ numWeekdays (get_arxiv_dates 14 900 840 7).1 (get_arxiv_dates 14 900 840 7).2
        = 7 - (if isWeekday (get_arxiv_dates 14 900 840 7).2 then 0 else 1)) :=
  ⟨by decide, compute_window_weekday_count 14 900 840 7 (by decide)⟩

/-- Counterexample to C3 as stated: with `now` on a Saturday afternoon
(day 5, 15:00 local, cutoff 14:00) and requiredUnits = 1, the window is the
single Saturday, which contains zero weekdays, not one. -/
theorem compute_window_weekend_count_cx :
    get_arxiv_dates 5 900 840 1 = (5, 5) ∧ numWeekdays 5 5 = 0 ∧ (0 : ℕ) ≠ 1 := by
  decide

/-! ## Lemmas: collection -/

lemma fetchLoop_bounds (t : ℕ) : ∀ l : List ArxivResult,
    (fetchLoop t l).2 ≤ l.length
    ∧ ∀ row ∈ (fetchLoop t l).1, row ∈ l.map mkRow := by
  intro l
  induction l with
  | nil => simp [fetchLoop]
  | cons r rs ih =>
    by_cases h1 : r.published = t
    · refine ⟨by simpa [fetchLoop, h1] using ih.1, ?_⟩
      intro row hrow
      rw [List.map_cons]
      simp only [fetchLoop, h1, if_true, eq_self_iff_true, List.mem_cons] at hrow
      rcases hrow with h | h
      · rw [h]
        exact List.mem_cons_self _ _
      · exact List.mem_cons_of_mem _ (ih.2 row h)
    · by_cases h2 : r.published < t
      · simp [fetchLoop, h1, h2]
      · refine ⟨by simpa [fetchLoop, h1, h2] using ih.1, ?_⟩
        intro row hrow
        rw [List.map_cons]
        simp only [fetchLoop, h1, h2, if_false] at hrow
        exact List.mem_cons_of_mem _ (ih.2 row hrow)

/-- Claim C9 (confirmed): when the catalog sequence for a category starts with
two items published exactly on the unit date followed by one strictly older
item, the collector returns exactly those two rows and examines exactly three
items, whatever follows the older item. -/
theorem fetch_stops_at_older_item (a b c : ArxivResult) (rest : List ArxivResult) (t : ℕ)
    (ha : a.published = t) (hb : b.published = t) (hc : c.published < t) :
    fetchForCategory (a :: b :: c :: rest) t = ([mkRow a, mkRow b], 3) := by
  have htake : (a :: b :: c :: rest).take 500 = a :: b :: c :: rest.take 497 := rfl
  unfold fetchForCategory fetch_arxiv_papers_by_date
  rw [htake]
  simp [fetchLoop, ha, hb, Nat.ne_of_lt hc, hc]

/-- Witness for C9: the spec's end-to-end scenario, with concrete catalog
items for 2024-03-04 and one for 2024-03-01. -/
theorem fetch_stops_at_older_item_witness :
    resOnDateA.published = 20240304 ∧ resOnDateB.published = 20240304
    ∧ resOlderC.published < 20240304
    ∧ fetchForCategory [resOnDateA, resOnDateB, resOlderC] 20240304
        = ([mkRow resOnDateA, mkRow resOnDateB], 3) :=
  ⟨by decide, by decide, by decide,
   fetch_stops_at_older_item resOnDateA resOnDateB resOlderC [] 20240304
     (by decide) (by decide) (by decide)⟩

/-- Claim C10 (confirmed): a collection call examines at most 500 catalog
results per category, and every collected row comes from one of the first 500
results of that category's query — an in-date item beyond them is never
collected. -/
theorem fetch_examines_at_most_500 (catalog : List ArxivResult) (t : ℕ) :
    (fetchForCategory catalog t).2 ≤ 500
    ∧ ∀ row ∈ (fetchForCategory catalog t).1, row ∈ (catalog.take 500).map mkRow := by
  have hb := fetchLoop_bounds t (catalog.take 500)
  refine ⟨le_trans hb.1 ?_, hb.2⟩
  rw [List.length_take]
  omega

/-- Witness for C10: a concrete catalog where a newer item is skipped and the
in-date item is collected from within the first 500 results. -/
theorem fetch_examines_at_most_500_witness :
    (fetchForCategory [resNewerD, resOnDateA] 20240304).2 ≤ 500
    ∧ mkRow resOnDateA ∈ ([resNewerD, resOnDateA].take 500).map mkRow :=
  ⟨(fetch_examines_at_most_500 [resNewerD, resOnDateA] 20240304).1,
   (fetch_examines_at_most_500 [resNewerD, resOnDateA] 20240304).2 (mkRow resOnDateA)
     (by decide)⟩

/-! ## Lemmas: naming, orchestrator, collection persistence -/

lemma isPrefixOf_append_self (p rest : List Char) : p.isPrefixOf (p ++ rest) = true := by
  induction p with
  | nil => simp [List.isPrefixOf]
  | cons c cs ih => simp [List.isPrefixOf, ih]

lemma isSuffixOf_append_self (s rest : List Char) : s.isSuffixOf (rest ++ s) = true := by
  unfold List.isSuffixOf
  rw [List.reverse_append]
  exact isPrefixOf_append_self _ _

lemma pipelineLoop_length (env : StageEnv) (cats : List String) :
    ∀ (dates : List String) (store : PaperStore),
      (pipelineLoop env cats dates store).2.length = dates.length := by
  intro dates
  induction dates with
  | nil => intro store; rfl
  | cons d ds ih => intro store; simp [pipelineLoop, ih]

/-- Claim C5 (amended): the range loop hands every date of the range to
check_and_run_pipeline — one outcome per unit, failures notwithstanding —
but the process exit code is 0 unconditionally, not a reflection of FAILED
units. -/
theorem pipeline_continues_and_exit_zero (env : StageEnv) (cats : List String)
    (dates : List String) (store : PaperStore) :
    (run_pipeline_main env cats dates store).2.1.length = dates.length
    ∧ (run_pipeline_main env cats dates store).2.2 = 0 :=
  ⟨pipelineLoop_length env cats dates store, rfl⟩

/-- Counterexample to C5 as stated: a run whose only unit FAILED (the fetch
step exits non-zero) still terminates with exit code 0, so the exit code is
not non-zero iff some unit failed. -/
theorem pipeline_exit_code_zero_on_failure_cx :
    (run_pipeline_main envFail ["cs.AI"] [("2024-03-04")] []).2.1
      = [⟨true, false, true⟩]
    ∧ (run_pipeline_main envFail ["cs.AI"] [("2024-03-04")] []).2.2 = 0 := by
  decide

/-- Claim C1 (amended): when any matching artifact filename exists for the
unit, check_and_run_pipeline invokes neither the collection stage nor the
enrichment stage and leaves the store untouched — artifact presence
suppresses the whole per-unit pipeline, not just collection. -/
theorem check_and_run_skips_all_when_artifact_exists (env : StageEnv)
    (cats : List String) (d : String) (store : PaperStore)
    (h : existsArtifact (store.map Prod.fst) cats d = true) :
    check_and_run_pipeline env cats d store = (store, ⟨false, false, false⟩) := by
  simp [check_and_run_pipeline, h]

/-- Witness for C1 (amended): the concrete collected-but-pending store. -/
theorem check_and_run_skips_all_when_artifact_exists_witness :
    existsArtifact (store0C1.map Prod.fst) ["cs.AI"] ("2024-03-04") = true
    ∧ check_and_run_pipeline envEnrich ["cs.AI"] ("2024-03-04") store0C1
        = (store0C1, ⟨false, false, false⟩) :=
  ⟨by decide,
   check_and_run_skips_all_when_artifact_exists envEnrich ["cs.AI"] ("2024-03-04") store0C1
     (by decide)⟩

/-- Counterexample to C1 as stated: a unit in state COLLECTED (artifact
exists, one row pending) is not transitioned to ENRICHED by an orchestrator
invocation: the enrichment stage is not invoked (ranSum = false), the store
is unchanged, and the artifact still has a pending row — even under an
environment whose summarize step would have enriched it. -/
theorem check_and_run_existing_artifact_not_enriched_cx :
    pendingB pRowC1 = true
    ∧ check_and_run_pipeline envEnrich ["cs.AI"] ("2024-03-04") store0C1
        = (store0C1, ⟨false, false, false⟩)
    ∧ artifactEnriched [pRowC1] = false := by
  decide

/-- Claim C7 (confirmed): when every category contributed an empty result,
the fetcher's main persists nothing, so the store is unchanged and a unit
with no matching artifact is still seen as unprocessed by the next
orchestrator check, which re-runs collection for it. -/
theorem empty_collection_persists_nothing (store : PaperStore) (filename : String)
    (results : List (List PaperRow)) (env : StageEnv) (cats : List String) (d : String)
    (h : ∀ df ∈ results, df = []) :
    fetcher_main store filename results = store
    ∧ (existsArtifact (store.map Prod.fst) cats d = false →
        (check_and_run_pipeline env cats d (fetcher_main store filename results)).2.ranFetch
          = true) := by
  have hfil : results.filter (fun df => !df.isEmpty) = [] := by
    rw [List.filter_eq_nil_iff]
    intro df hdf
    simp [h df hdf]
  have hmain : fetcher_main store filename results = store := by
    simp [fetcher_main, hfil]
  refine ⟨hmain, ?_⟩
  intro hfound
  rw [hmain]
  rcases henv : env.fetchStep d store with e1 | s1
  · simp [check_and_run_pipeline, hfound, henv]
  · rcases henv2 : env.sumStep d s1 with e2 | s2 <;>
      simp [check_and_run_pipeline, hfound, henv, henv2]

/-- Witness for C7: two empty category results against an empty store. -/
theorem empty_collection_persists_nothing_witness :
    (∀ df ∈ ([[], []] : List (List PaperRow)), df = [])
    ∧ (fetcher_main [] ("f.csv") [[], []] = []
      ∧ (existsArtifact (([] : PaperStore).map Prod.fst) ["cs.AI"] ("2024-03-04") = false →
          (check_and_run_pipeline envEnrich ["cs.AI"] ("2024-03-04")
            (fetcher_main [] ("f.csv") [[], []])).2.ranFetch = true)) :=
  ⟨by decide,
   empty_collection_persists_nothing [] ("f.csv") [[], []] envEnrich ["cs.AI"] ("2024-03-04")
     (by decide)⟩

/-- Claim C4 (amended): a filename consisting of the category-list pattern
head, then any infix (for example a keyword qualifier), then the date pattern
tail is accepted by the artifact-existence scan, and the fetcher's own output
filename has exactly this shape; the pattern head is built from the
categories in the order given (not sorted). -/
theorem artifact_match_containment :
    (∀ (files : List String) (cats : List String) (d : String) (mid : List Char),
        String.mk (prefixPat cats ++ (mid ++ suffixPat d)) ∈ files →
        existsArtifact files cats d = true)
    ∧ (∀ (cats : List String) (kw d : String),
        (output_filename cats kw d).toList = prefixPat cats ++ (kw.toList ++ suffixPat d)) := by
  constructor
  · intro files cats d mid hmem
    unfold existsArtifact
    rw [List.any_eq_true]
    refine ⟨_, hmem, ?_⟩
    unfold filename_matches
    rw [Bool.and_eq_true]
    constructor
    · exact isPrefixOf_append_self _ _
    · show (suffixPat d).isSuffixOf (prefixPat cats ++ (mid ++ suffixPat d)) = true
      rw [← List.append_assoc]
      exact isSuffixOf_append_self _ _
  · intro cats kw d
    show (output_filename cats kw d).data = prefixPat cats ++ (kw.data ++ suffixPat d)
    simp [output_filename, String.data_append]

/-- Witness for C4 (amended): a keyword-qualified filename is found. -/
theorem artifact_match_containment_witness :
    String.mk (prefixPat ["cs.AI"] ++ ("_keywords_audio".toList ++ suffixPat ("2024-03-04")))
      ∈ [String.mk (prefixPat ["cs.AI"] ++ ("_keywords_audio".toList ++ suffixPat ("2024-03-04")))]
    ∧ existsArtifact
        [String.mk (prefixPat ["cs.AI"] ++ ("_keywords_audio".toList ++ suffixPat ("2024-03-04")))]
        ["cs.AI"] ("2024-03-04") = true :=
  ⟨by decide,
   artifact_match_containment.1 _ ["cs.AI"] ("2024-03-04") ("_keywords_audio".toList)
     (by decide)⟩

/-- Counterexample to C4 as stated: the pattern head depends on the order of
the category list — it is not derived from the sorted set — so an artifact
written under one ordering is not found when the same category set is given
in another order. -/
theorem artifact_naming_order_sensitive_cx :
    prefixPat ["cs.AI", "stat.ML"] ≠ prefixPat ["stat.ML", "cs.AI"]
    ∧ existsArtifact [output_filename ["cs.AI", "stat.ML"] ("") ("2024-03-04")]
        ["stat.ML", "cs.AI"] ("2024-03-04") = false := by
  decide

/-! ## Lemmas: enrichment -/

lemma sentinel_ne_empty (e : String) : ("调用API失败: " ++ e) ≠ "" := by
  intro h
  have hlen := congrArg String.length h
  rw [String.length_append] at hlen
  have h9 : ("调用API失败: " : String).length = 9 := rfl
  simp [h9] at hlen

lemma enrichRow_not_pending (annotate : String → String → Except String String)
    (r : PaperRow) (hok : ∀ t s out, annotate t s = Except.ok out → out ≠ "")
    (hp : pendingB r = true) :
    pendingB (enrichRow annotate r) = false := by
  unfold enrichRow
  rw [hp]
  simp only [if_true]
  show (get_summary_from_zai annotate r.title r.summary == "") = false
  rw [beq_eq_false_iff_ne]
  unfold get_summary_from_zai
  rcases h : annotate r.title r.summary with e | t
  · exact sentinel_ne_empty e
  · exact hok _ _ _ h

/-- Claim C6 (confirmed): one enrichment pass sends exactly the pending rows
(absent or empty annotation) to the annotator, once each and in artifact
order; no row aborts the pass, and afterwards — failures included, since a
failure writes the non-empty sentinel — no row of the table is pending. -/
theorem enrichment_calls_exactly_pending_rows
    (annotate : String → String → Except String String) (rows : List PaperRow)
    (hok : ∀ t s out, annotate t s = Except.ok out → out ≠ "") :
    (processFileInstr annotate rows).2
      = (rows.filter pendingB).map (fun r => (r.title, r.summary))
    ∧ (processFileInstr annotate rows).1.length = rows.length
    ∧ ∀ r ∈ (processFileInstr annotate rows).1, pendingB r = false := by
  induction rows with
  | nil => simp [processFileInstr]
  | cons r rs ih =>
    obtain ⟨ih1, ih2, ih3⟩ := ih
    by_cases hp : pendingB r
    · refine ⟨?_, ?_, ?_⟩
      · simp [processFileInstr, hp, ih1]
      · simp [processFileInstr, hp, ih2]
      · intro x hx
        simp only [processFileInstr, hp, if_true, List.mem_cons] at hx
        rcases hx with h | h
        · rw [h]
          exact enrichRow_not_pending annotate r hok hp
        · exact ih3 x h
    · have hp' : pendingB r = false := by simpa using hp
      refine ⟨?_, ?_, ?_⟩
      · simp [processFileInstr, hp', ih1]
      · simp [processFileInstr, hp', ih2]
      · intro x hx
        simp only [processFileInstr, hp', if_false, Bool.false_eq_true, List.mem_cons] at hx
        rcases hx with h | h
        · rw [h]
          exact hp'
        · exact ih3 x h

lemma ann10_ok_nonempty : ∀ t s out, ann10 t s = Except.ok out → out ≠ "" := by
  intro t s out h
  unfold ann10 at h
  by_cases hc : (t == "t4" || t == "t5" || t == "t6") = true
  · rw [hc] at h
    simp at h
  · rw [Bool.not_eq_true] at hc
    rw [hc] at h
    simp only [if_false, Bool.false_eq_true] at h
    injection h with h2
    rw [← h2]
    decide

/-- Witness for C6: the spec's ten-row scenario — three rows already
annotated, seven pending, annotator failing on rows 4–6 — ends with exactly
seven calls and every row non-pending. -/
theorem enrichment_calls_exactly_pending_rows_witness :
    (∀ t s out, ann10 t s = Except.ok out → out ≠ "")
    ∧ ((processFileInstr ann10 rows10).2
        = (rows10.filter pendingB).map (fun r => (r.title, r.summary))
      ∧ (processFileInstr ann10 rows10).1.length = rows10.length
      ∧ ∀ r ∈ (processFileInstr ann10 rows10).1, pendingB r = false)
    ∧ (processFileInstr ann10 rows10).2.length = 7
    ∧ artifactEnriched (processFileInstr ann10 rows10).1 = true :=
  ⟨ann10_ok_nonempty,
   enrichment_calls_exactly_pending_rows ann10 rows10 ann10_ok_nonempty,
   by decide, by decide⟩

/-- Claim C2 (amended): process_file persists nothing until the whole pass is
complete — after any number of annotator calls short of the pending count the
list of saves is empty, there is at most one save overall, and the single
save happens exactly when all pending rows have been processed.  Rows
annotated during an interrupted pass therefore do not survive; only the
artifact state from before the pass does. -/
theorem enrichment_saves_only_after_full_pass
    (annotate : String → String → Except String String) (rows : List PaperRow) (k : ℕ)
    (hk : k < pendingCount rows) :
    savesAfterCalls annotate rows k = []
    ∧ (processFileSaves annotate rows).length ≤ 1
    ∧ savesAfterCalls annotate rows (pendingCount rows) = processFileSaves annotate rows := by
  refine ⟨?_, ?_, ?_⟩
  · unfold savesAfterCalls
    rw [if_neg (by omega)]
  · unfold processFileSaves
    split <;> simp
  · unfold savesAfterCalls
    rw [if_pos (le_refl _)]

/-- Witness for C2 (amended): two pending rows, interruption after one call. -/
theorem enrichment_saves_only_after_full_pass_witness :
    1 < pendingCount rowsC2
    ∧ (savesAfterCalls annOk rowsC2 1 = []
      ∧ (processFileSaves annOk rowsC2).length ≤ 1
      ∧ savesAfterCalls annOk rowsC2 (pendingCount rowsC2) = processFileSaves annOk rowsC2) :=
  ⟨by decide, enrichment_saves_only_after_full_pass annOk rowsC2 1 (by decide)⟩

/-- Counterexample to C2 as stated: interrupting the pass over two pending
rows after the first annotator call, the first row is annotated in memory,
yet no artifact state has been persisted during the pass, so the last saved
artifact is the pre-pass table in which that row is still pending — the
annotated row does not survive. -/
theorem enrichment_interrupted_progress_lost_cx :
    savesAfterCalls annOk rowsC2 1 = []
    ∧ (enrichFirstK annOk rowsC2 1).map (fun r => r.summarization) = [some ("S"), none]
    ∧ rowsC2.map (fun r => r.summarization) = [none, none] := by
  decide

/-! ## Lemmas: CSV serialization -/

lemma consCell_shape (c : Char) (cell : List Char) (cells : List (List Char))
    (rs : List (List (List Char))) :
    consCell c ((cell :: cells) :: rs) = ((c :: cell) :: cells) :: rs := rfl

lemma prependCells_nil (X : List (List (List Char))) : prependCells [] X = X := rfl

